import Mathlib

/-!
Verification of the server-event channel layer of bevy_replicon
(src/network_event/server_event.rs), embedded shallowly: the sending,
local-resending and receiving systems become pure Lean functions over
explicit lists of envelopes, messages and connected clients.
-/

/-- Serialized messages are byte sequences; bytes are abstracted as naturals. -/
abbrev Bytes := List Nat

/-- Modelled from the spec: the authority session is treated as a client with
id SERVER_ID (the server module defining the constant is outside the provided
sources). Only equality with other client ids matters to the systems below. -/
def SERVER_ID : Nat := 0

/-- Type of server message sending (enum SendMode in server_event.rs). -/
inductive SendMode where
  | Broadcast : SendMode
  | BroadcastExcept (client_id : Nat) : SendMode
  | Direct (client_id : Nat) : SendMode
deriving DecidableEq, Repr

/-- An event that will be sent to clients (struct ToClients in server_event.rs). -/
structure ToClients (T : Type) where
  mode : SendMode
  event : T
deriving DecidableEq, Repr

/-- One network transmission: destination client, channel, message bytes. -/
structure Send where
  client_id : Nat
  channel_id : Nat
  message : Bytes
deriving DecidableEq, Repr

/-- Modelled from the spec: transport interface, broadcast(bytes) sends the
message to every connected client on the channel. -/
def broadcast_message (clients : List Nat) (channel_id : Nat) (message : Bytes) :
    List Send :=
  clients.map (fun c => { client_id := c, channel_id := channel_id, message := message })

/-- Modelled from the spec: transport interface, broadcast_except(target, bytes)
sends the message to every connected client except the given one. -/
def broadcast_message_except (except_id : Nat) (clients : List Nat) (channel_id : Nat)
    (message : Bytes) : List Send :=
  (clients.filter (fun c => c ≠ except_id)).map
    (fun c => { client_id := c, channel_id := channel_id, message := message })

/-- Modelled from the spec: transport interface, send(target, bytes) sends the
message to exactly the given client. -/
def send_message (client_id : Nat) (channel_id : Nat) (message : Bytes) : List Send :=
  [{ client_id := client_id, channel_id := channel_id, message := message }]

/-- The match on mode in the loop body of sending_system (and of
sending_reflect_system, whose match is identical): Broadcast fans out to all,
BroadcastExcept falls back to a full broadcast when the excluded id is
SERVER_ID, Direct sends to one client unless the target is SERVER_ID, in
which case no network send is issued. -/
def dispatch_message (clients : List Nat) (channel_id : Nat) (mode : SendMode)
    (message : Bytes) : List Send :=
  match mode with
  | SendMode.Broadcast => broadcast_message clients channel_id message
  | SendMode.BroadcastExcept client_id =>
      if client_id = SERVER_ID then broadcast_message clients channel_id message
      else broadcast_message_except client_id clients channel_id message
  | SendMode.Direct client_id =>
      if client_id ≠ SERVER_ID then send_message client_id channel_id message
      else []

/-- fn sending_system: drains the ToClients queue, serializing each event once
per envelope and dispatching by mode. The first component collects every
network send issued; the second is the trace of serializer invocations, one
entry per call to bincode::serialize in the loop body. -/
def sending_system {T : Type} (serialize : T → Bytes) (clients : List Nat)
    (channel_id : Nat) : List (ToClients T) → List Send × List Bytes
  | [] => ([], [])
  | e :: rest =>
      (dispatch_message clients channel_id e.mode (serialize e.event) ++
        (sending_system serialize clients channel_id rest).1,
       serialize e.event :: (sending_system serialize clients channel_id rest).2)

/-- fn sending_reflect_system: identical loop to sending_system except that the
message comes from serializing the type-erased wrapper built by the
BuildEventSerializer over the type registry; that step is abstracted as the
serialize parameter. -/
def sending_reflect_system {T : Type} (serialize : T → Bytes) (clients : List Nat)
    (channel_id : Nat) : List (ToClients T) → List Send × List Bytes
  | [] => ([], [])
  | e :: rest =>
      (dispatch_message clients channel_id e.mode (serialize e.event) ++
        (sending_reflect_system serialize clients channel_id rest).1,
       serialize e.event :: (sending_reflect_system serialize clients channel_id rest).2)

/-- fn local_resending_system: drains the ToClients queue, re-emitting events
locally according to mode. Returns the emitted local events and the queue
contents left after the drain (Events::drain consumes every envelope). -/
def local_resending_system {T : Type} :
    List (ToClients T) → List T × List (ToClients T)
  | [] => ([], [])
  | e :: rest =>
      match e.mode with
      | SendMode.Broadcast =>
          (e.event :: (local_resending_system rest).1, (local_resending_system rest).2)
      | SendMode.BroadcastExcept client_id =>
          if client_id ≠ SERVER_ID then
            (e.event :: (local_resending_system rest).1, (local_resending_system rest).2)
          else local_resending_system rest
      | SendMode.Direct client_id =>
          if client_id = SERVER_ID then
            (e.event :: (local_resending_system rest).1, (local_resending_system rest).2)
          else local_resending_system rest

/-- The per-envelope local emission decision of local_resending_system, as a
named function for stating theorems: some event when the envelope loops back
locally, none otherwise. -/
def local_event {T : Type} (e : ToClients T) : Option T :=
  match e.mode with
  | SendMode.Broadcast => some e.event
  | SendMode.BroadcastExcept client_id =>
      if client_id ≠ SERVER_ID then some e.event else none
  | SendMode.Direct client_id =>
      if client_id = SERVER_ID then some e.event else none

/-- Integer encoding choice of a bincode configuration. -/
inductive IntEncoding where
  | fixint : IntEncoding
  | varint : IntEncoding
deriving DecidableEq, Repr

/-- Trailing-bytes policy of a bincode configuration. -/
inductive TrailingBytes where
  | allow : TrailingBytes
  | reject : TrailingBytes
deriving DecidableEq, Repr

/-- Byte-order choice of a bincode configuration. -/
inductive Endianness where
  | little : Endianness
  | big : Endianness
deriving DecidableEq, Repr

/-- A bincode options value: byte limit, endianness, integer encoding and
trailing-bytes policy (the four axes of the bincode config system referenced
by the source comment in receiving_reflect_system). -/
structure BincodeConfig where
  byte_limit : Option Nat
  endianness : Endianness
  int_encoding : IntEncoding
  trailing : TrailingBytes
deriving DecidableEq, Repr

/-- Modelled from the bincode documentation linked in the source comment:
DefaultOptions::new() is unlimited, little-endian, varint encoding,
rejecting trailing bytes. -/
def DefaultOptions.new : BincodeConfig :=
  { byte_limit := none, endianness := Endianness.little,
    int_encoding := IntEncoding.varint, trailing := TrailingBytes.reject }

/-- Modelled from the bincode documentation: with_fixint_encoding switches the
integer encoding to fixed width. -/
def with_fixint_encoding (c : BincodeConfig) : BincodeConfig :=
  { c with int_encoding := IntEncoding.fixint }

/-- Modelled from the bincode documentation: allow_trailing_bytes permits
unread trailing bytes after a value. -/
def allow_trailing_bytes (c : BincodeConfig) : BincodeConfig :=
  { c with trailing := TrailingBytes.allow }

/-- Modelled from the bincode documentation linked in the source comment: the
plain bincode::serialize and bincode::deserialize functions use unlimited,
little-endian, fixint encoding and allow trailing bytes. -/
def bincode_function_config : BincodeConfig :=
  { byte_limit := none, endianness := Endianness.little,
    int_encoding := IntEncoding.fixint, trailing := TrailingBytes.allow }

/-- The options value constructed inside receiving_reflect_system and
receiving_and_mapping_reflect_system to match bincode::serialize. -/
def reflect_receive_config : BincodeConfig :=
  allow_trailing_bytes (with_fixint_encoding DefaultOptions.new)

/-- fn receiving_system: drains the channel, deserializing each message and
emitting the event. A failed deserialization hits the expect and panics,
modelled as none for the whole run. -/
def receiving_system {T : Type} (deserialize : Bytes → Option T) :
    List Bytes → Option (List T)
  | [] => some []
  | m :: rest =>
      match deserialize m with
      | none => none
      | some event => (receiving_system deserialize rest).map (fun l => event :: l)

/-- fn receiving_and_mapping_system: like receiving_system but, after decoding
and before emitting, maps server entities through the NetworkEntityMap; a
mapping failure hits the panic, modelled as none. The second component counts
the map_entities invocations performed. -/
def receiving_and_mapping_system {T : Type} (deserialize : Bytes → Option T)
    (map_entities : T → Option T) : List Bytes → Option (List T) × Nat
  | [] => (some [], 0)
  | m :: rest =>
      match deserialize m with
      | none => (none, 0)
      | some event =>
          match map_entities event with
          | none => (none, 1)
          | some mapped =>
              ((receiving_and_mapping_system deserialize map_entities rest).1.map
                 (fun l => mapped :: l),
               (receiving_and_mapping_system deserialize map_entities rest).2 + 1)

/-- fn receiving_reflect_system: drains the channel, deserializing each message
through the type-erased deserializer under options built to match
bincode::serialize (DefaultOptions with fixint encoding and trailing bytes
allowed); a failure hits the expect and panics, modelled as none. -/
def receiving_reflect_system {T : Type}
    (deserialize_with : BincodeConfig → Bytes → Option T) :
    List Bytes → Option (List T)
  | [] => some []
  | m :: rest =>
      match deserialize_with (allow_trailing_bytes (with_fixint_encoding DefaultOptions.new)) m with
      | none => none
      | some event =>
          (receiving_reflect_system deserialize_with rest).map (fun l => event :: l)

/-- fn receiving_and_mapping_reflect_system: the reflect deserializer under the
same rebuilt options, followed by entity mapping before emission; decode or
mapping failure panics, modelled as none. The second component counts the
map_entities invocations. -/
def receiving_and_mapping_reflect_system {T : Type}
    (deserialize_with : BincodeConfig → Bytes → Option T)
    (map_entities : T → Option T) : List Bytes → Option (List T) × Nat
  | [] => (some [], 0)
  | m :: rest =>
      match deserialize_with (allow_trailing_bytes (with_fixint_encoding DefaultOptions.new)) m with
      | none => (none, 0)
      | some event =>
          match map_entities event with
          | none => (none, 1)
          | some mapped =>
              ((receiving_and_mapping_reflect_system deserialize_with map_entities rest).1.map
                 (fun l => mapped :: l),
               (receiving_and_mapping_reflect_system deserialize_with map_entities rest).2 + 1)

/-- Wire layout claimed by the spec for SendEnvelope, stated from the words of
the spec for comparison with the source: a mode tag byte. -/
def mode_tag : SendMode → Nat
  | SendMode.Broadcast => 0
  | SendMode.BroadcastExcept _ => 1
  | SendMode.Direct _ => 2

/-- Wire layout claimed by the spec for SendEnvelope, stated from the words of
the spec for comparison with the source: the optional client id field. -/
def mode_client_id : SendMode → List Nat
  | SendMode.Broadcast => []
  | SendMode.BroadcastExcept client_id => [client_id]
  | SendMode.Direct client_id => [client_id]

/-- Wire layout claimed by the spec for SendEnvelope, stated from the words of
the spec for comparison with the source: mode tag, then optional client id,
then the encoded payload. -/
def spec_envelope_bytes (mode : SendMode) (payload : Bytes) : Bytes :=
  mode_tag mode :: (mode_client_id mode ++ payload)

lemma sending_system_fst_append {T : Type} (serialize : T → Bytes) (clients : List Nat)
    (channel_id : Nat) (qa qb : List (ToClients T)) :
    (sending_system serialize clients channel_id (qa ++ qb)).1 =
      (sending_system serialize clients channel_id qa).1 ++
        (sending_system serialize clients channel_id qb).1 := by
  induction qa with
  | nil => simp [sending_system]
  | cons e rest ih => simp [sending_system, ih]

lemma local_resending_system_fst_append {T : Type} (qa qb : List (ToClients T)) :
    (local_resending_system (qa ++ qb)).1 =
      (local_resending_system qa).1 ++ (local_resending_system qb).1 := by
  induction qa with
  | nil => simp [local_resending_system]
  | cons e rest ih =>
      cases h : e.mode with
      | Broadcast => simp [local_resending_system, h, ih]
      | BroadcastExcept client_id =>
          by_cases hc : client_id = SERVER_ID <;>
            simp [local_resending_system, h, hc, ih]
      | Direct client_id =>
          by_cases hc : client_id = SERVER_ID <;>
            simp [local_resending_system, h, hc, ih]

lemma mem_dispatch_message {clients : List Nat} {channel_id : Nat} {mode : SendMode}
    {message : Bytes} {s : Send}
    (h : s ∈ dispatch_message clients channel_id mode message) :
    s.message = message := by
  cases mode with
  | Broadcast =>
      simp only [dispatch_message, broadcast_message, List.mem_map] at h
      obtain ⟨c, _, rfl⟩ := h
      rfl
  | BroadcastExcept client_id =>
      by_cases hc : client_id = SERVER_ID <;>
        simp only [dispatch_message, hc, if_pos, if_neg, broadcast_message,
          broadcast_message_except, List.mem_map, ite_true, ite_false] at h <;>
      · obtain ⟨c, _, rfl⟩ := h
        rfl
  | Direct client_id =>
      by_cases hc : client_id = SERVER_ID
      · simp [dispatch_message, hc] at h
      · simp only [dispatch_message, hc, ne_eq, not_false_eq_true, ite_true,
          send_message, List.mem_singleton] at h
        subst h
        rfl

/-- C1: a server event sent with mode Direct(client_id) where client_id equals
SERVER_ID issues no network send on any channel, and the local resending
path emits the event exactly once as a local event. -/
theorem direct_to_self_no_wire {T : Type} (serialize : T → Bytes) (clients : List Nat)
    (channel_id : Nat) (ev : T) (qa qb : List (ToClients T)) :
    (sending_system serialize clients channel_id
        (qa ++ { mode := SendMode.Direct SERVER_ID, event := ev } :: qb)).1 =
      (sending_system serialize clients channel_id qa).1 ++
        (sending_system serialize clients channel_id qb).1 ∧
    (local_resending_system
        (qa ++ { mode := SendMode.Direct SERVER_ID, event := ev } :: qb)).1 =
      (local_resending_system qa).1 ++ ev :: (local_resending_system qb).1 := by
  constructor
  · rw [sending_system_fst_append]
    simp [sending_system, dispatch_message]
  · rw [local_resending_system_fst_append]
    simp [local_resending_system]

/-- C2: a server event sent with mode BroadcastExcept(cid) for a connected
remote client cid (cid distinct from SERVER_ID) is transmitted to exactly the
connected clients other than cid, and the event is emitted locally exactly
once. -/
theorem broadcast_except_remote_fanout {T : Type} (serialize : T → Bytes)
    (clients : List Nat) (channel_id : Nat) (cid : Nat) (ev : T)
    (qa qb : List (ToClients T)) (hne : cid ≠ SERVER_ID) (hmem : cid ∈ clients) :
    (sending_system serialize clients channel_id
        (qa ++ { mode := SendMode.BroadcastExcept cid, event := ev } :: qb)).1 =
      (sending_system serialize clients channel_id qa).1 ++
        ((clients.filter (fun c => c ≠ cid)).map
          (fun c => { client_id := c, channel_id := channel_id,
                      message := serialize ev })) ++
        (sending_system serialize clients channel_id qb).1 ∧
    (local_resending_system
        (qa ++ { mode := SendMode.BroadcastExcept cid, event := ev } :: qb)).1 =
      (local_resending_system qa).1 ++ ev :: (local_resending_system qb).1 := by
  constructor
  · rw [sending_system_fst_append]
    simp [sending_system, dispatch_message, hne, broadcast_message_except]
  · rw [local_resending_system_fst_append]
    simp [local_resending_system, hne]

/-- Witness for C2 at the concrete scenario of the spec: connected clients
3, 5, 9 and an event excluding client 5 reach exactly clients 3 and 9. -/
theorem broadcast_except_remote_fanout_witness :
    ((5 : Nat) ≠ SERVER_ID ∧ (5 : Nat) ∈ [3, 5, 9]) ∧
    ((sending_system (fun n : Nat => [n]) [3, 5, 9] 1
        ([] ++ { mode := SendMode.BroadcastExcept 5, event := (7 : Nat) } :: [])).1 =
      (sending_system (fun n : Nat => [n]) [3, 5, 9] 1 []).1 ++
        ((([3, 5, 9] : List Nat).filter (fun c => c ≠ 5)).map
          (fun c => { client_id := c, channel_id := 1, message := [7] })) ++
        (sending_system (fun n : Nat => [n]) [3, 5, 9] 1 []).1 ∧
    (local_resending_system
        ([] ++ { mode := SendMode.BroadcastExcept 5, event := (7 : Nat) } :: [])).1 =
      (local_resending_system ([] : List (ToClients Nat))).1 ++ 7 ::
        (local_resending_system ([] : List (ToClients Nat))).1) :=
  ⟨⟨by decide, by decide⟩,
    broadcast_except_remote_fanout (fun n : Nat => [n]) [3, 5, 9] 1 5 7 [] []
      (by decide) (by decide)⟩

/-- C3: a server event sent with mode Broadcast is transmitted to every
connected client, emitted locally exactly once, and the serializer trace of
the sending system has exactly one entry per envelope, independent of the
connected-client set. -/
theorem broadcast_fanout_single_serialization {T : Type} (serialize : T → Bytes)
    (clients : List Nat) (channel_id : Nat) (ev : T) (qa qb : List (ToClients T)) :
    (sending_system serialize clients channel_id
        (qa ++ { mode := SendMode.Broadcast, event := ev } :: qb)).1 =
      (sending_system serialize clients channel_id qa).1 ++
        (clients.map (fun c => { client_id := c, channel_id := channel_id,
                                 message := serialize ev })) ++
        (sending_system serialize clients channel_id qb).1 ∧
    (local_resending_system
        (qa ++ { mode := SendMode.Broadcast, event := ev } :: qb)).1 =
      (local_resending_system qa).1 ++ ev :: (local_resending_system qb).1 ∧
    (∀ r : List (ToClients T),
      (sending_system serialize clients channel_id r).2 =
        r.map (fun e => serialize e.event)) := by
  refine ⟨?_, ?_, ?_⟩
  · rw [sending_system_fst_append]
    simp [sending_system, dispatch_message, broadcast_message]
  · rw [local_resending_system_fst_append]
    simp [local_resending_system]
  · intro r
    induction r with
    | nil => simp [sending_system]
    | cons e rest ih => simp [sending_system, ih]

/-- C9: a server event sent with mode BroadcastExcept(SERVER_ID) is broadcast
to every connected remote client with none excluded, and the local resending
path emits no local event for that envelope. -/
theorem broadcast_except_server_id {T : Type} (serialize : T → Bytes)
    (clients : List Nat) (channel_id : Nat) (ev : T) (qa qb : List (ToClients T)) :
    (sending_system serialize clients channel_id
        (qa ++ { mode := SendMode.BroadcastExcept SERVER_ID, event := ev } :: qb)).1 =
      (sending_system serialize clients channel_id qa).1 ++
        (clients.map (fun c => { client_id := c, channel_id := channel_id,
                                 message := serialize ev })) ++
        (sending_system serialize clients channel_id qb).1 ∧
    (local_resending_system
        (qa ++ { mode := SendMode.BroadcastExcept SERVER_ID, event := ev } :: qb)).1 =
      (local_resending_system qa).1 ++ (local_resending_system qb).1 := by
  constructor
  · rw [sending_system_fst_append]
    simp [sending_system, dispatch_message, broadcast_message]
  · rw [local_resending_system_fst_append]
    simp [local_resending_system]

/-- Counterexample to C4: at a concrete Broadcast envelope with payload bytes
[7] and one connected client, the transmitted message is exactly the payload
[7], not the mode-tag-prefixed layout the claim describes. -/
theorem wire_format_counterexample :
    (sending_system (fun n : Nat => [n]) [3] 0
        [{ mode := SendMode.Broadcast, event := (7 : Nat) }]).1 =
      [{ client_id := 3, channel_id := 0, message := [7] }] ∧
    ([7] : Bytes) ≠ spec_envelope_bytes SendMode.Broadcast [7] := by
  decide

/-- C4 amended: every message put on the wire by the sending system consists
solely of the serialized payload of one of the queued events; no mode tag and
no client id are transmitted. -/
theorem wire_payload_only {T : Type} (serialize : T → Bytes) (clients : List Nat)
    (channel_id : Nat) (q : List (ToClients T)) (s : Send)
    (h : s ∈ (sending_system serialize clients channel_id q).1) :
    s.message ∈ q.map (fun e => serialize e.event) := by
  induction q with
  | nil => simp [sending_system] at h
  | cons e rest ih =>
      simp only [sending_system, List.mem_append] at h
      rcases h with hd | ht
      · simp [mem_dispatch_message hd]
      · simp [ih ht]

/-- Witness for the amended C4: the single send of a concrete Broadcast
envelope carries exactly the serialized payload of the queued event. -/
theorem wire_payload_only_witness :
    ({ client_id := 3, channel_id := 0, message := [7] } : Send) ∈
      (sending_system (fun n : Nat => [n]) [3] 0
        [{ mode := SendMode.Broadcast, event := (7 : Nat) }]).1 ∧
    ({ client_id := 3, channel_id := 0, message := [7] } : Send).message ∈
      ([{ mode := SendMode.Broadcast, event := (7 : Nat) }] :
        List (ToClients Nat)).map (fun e => (fun n : Nat => [n]) e.event) :=
  ⟨by decide,
    wire_payload_only (fun n : Nat => [n]) [3] 0
      [{ mode := SendMode.Broadcast, event := (7 : Nat) }]
      { client_id := 3, channel_id := 0, message := [7] } (by decide)⟩

/-- C10: the local resending system leaves the envelope queue empty, emits at
most one local event per envelope (exactly the filterMap of the per-envelope
decision), and running it again on the drained queue emits nothing. -/
theorem local_resending_drains_queue {T : Type} (q : List (ToClients T)) :
    (local_resending_system q).2 = [] ∧
    (local_resending_system q).1 = q.filterMap local_event ∧
    local_resending_system ((local_resending_system q).2) =
      (([] : List T), ([] : List (ToClients T))) := by
  have h2 : (local_resending_system q).2 = ([] : List (ToClients T)) := by
    induction q with
    | nil => rfl
    | cons e rest ih =>
        cases hm : e.mode with
        | Broadcast => simp [local_resending_system, hm, ih]
        | BroadcastExcept cid =>
            by_cases hc : cid = SERVER_ID <;>
              simp [local_resending_system, hm, hc, ih]
        | Direct cid =>
            by_cases hc : cid = SERVER_ID <;>
              simp [local_resending_system, hm, hc, ih]
  have h1 : (local_resending_system q).1 = q.filterMap local_event := by
    clear h2
    induction q with
    | nil => rfl
    | cons e rest ih =>
        cases hm : e.mode with
        | Broadcast => simp [local_resending_system, local_event, hm, ih]
        | BroadcastExcept cid =>
            by_cases hc : cid = SERVER_ID <;>
              simp [local_resending_system, local_event, hm, hc, ih]
        | Direct cid =>
            by_cases hc : cid = SERVER_ID <;>
              simp [local_resending_system, local_event, hm, hc, ih]
  exact ⟨h2, h1, by rw [h2]; rfl⟩

/-- C5: when every message decodes and maps successfully, the mapped receiving
system invokes the entity mapping exactly once per message and delivers the
events of the plain receiving pipeline run with the mapping composed right
after the decode; the plain receiving system itself involves no mapping. -/
theorem mapped_receive_single_mapping {T : Type} (deserialize : Bytes → Option T)
    (map_entities : T → Option T) (messages : List Bytes)
    (h : (messages.all fun m => ((deserialize m).bind map_entities).isSome) = true) :
    (receiving_and_mapping_system deserialize map_entities messages).1 =
      receiving_system (fun m => (deserialize m).bind map_entities) messages ∧
    (receiving_and_mapping_system deserialize map_entities messages).2 =
      messages.length := by
  induction messages with
  | nil => exact ⟨rfl, rfl⟩
  | cons m rest ih =>
      rw [List.all_cons, Bool.and_eq_true] at h
      obtain ⟨ih1, ih2⟩ := ih h.2
      cases hd : deserialize m with
      | none => rw [hd] at h; simp [Option.isSome] at h
      | some ev =>
          cases hf : map_entities ev with
          | none => rw [hd] at h; simp [Option.isSome, hf] at h
          | some mapped =>
              constructor
              · simp [receiving_and_mapping_system, receiving_system, hd, hf, ih1]
              · simp [receiving_and_mapping_system, hd, hf, ih2]

/-- Witness for C5: two one-byte messages decoded by head and mapped by adding
one are each mapped exactly once and delivered as the composed pipeline. -/
theorem mapped_receive_single_mapping_witness :
    (([[1], [2]] : List Bytes).all
      (fun m => (((fun b : Bytes => b.head?) m).bind
        (fun n => some (n + 1))).isSome)) = true ∧
    ((receiving_and_mapping_system (fun b : Bytes => b.head?)
        (fun n => some (n + 1)) [[1], [2]]).1 =
      receiving_system (fun m => (((fun b : Bytes => b.head?) m).bind
        (fun n => some (n + 1)))) [[1], [2]] ∧
     (receiving_and_mapping_system (fun b : Bytes => b.head?)
        (fun n => some (n + 1)) [[1], [2]]).2 =
      ([[1], [2]] : List Bytes).length) :=
  ⟨by decide,
    mapped_receive_single_mapping (fun b : Bytes => b.head?)
      (fun n => some (n + 1)) [[1], [2]] (by decide)⟩

/-- C6: a message whose bytes fail to decode makes the receiving path panic,
modelled as the whole run evaluating to none: no event is delivered for that
message, in both the plain and the reflect receiving systems. -/
theorem decode_failure_aborts {T : Type} (deserialize : Bytes → Option T)
    (deserialize_with : BincodeConfig → Bytes → Option T) (messages : List Bytes)
    (m : Bytes) (hm : m ∈ messages) (hd : deserialize m = none)
    (hdw : deserialize_with reflect_receive_config m = none) :
    receiving_system deserialize messages = none ∧
    receiving_reflect_system deserialize_with messages = none := by
  have hdw' : deserialize_with
      (allow_trailing_bytes (with_fixint_encoding DefaultOptions.new)) m = none := hdw
  induction messages with
  | nil => cases hm
  | cons x rest ih =>
      rcases List.mem_cons.mp hm with rfl | hx
      · constructor
        · simp [receiving_system, hd]
        · simp [receiving_reflect_system, hdw']
      · obtain ⟨ih1, ih2⟩ := ih hx
        constructor
        · cases hdx : deserialize x with
          | none => simp [receiving_system, hdx]
          | some ev => simp [receiving_system, hdx, ih1]
        · cases hdx : deserialize_with
              (allow_trailing_bytes (with_fixint_encoding DefaultOptions.new)) x with
          | none => simp [receiving_reflect_system, hdx]
          | some ev => simp [receiving_reflect_system, hdx, ih2]

/-- Witness for C6: an empty message fails to decode under a head decoder and
both receiving systems abort with no delivered events. -/
theorem decode_failure_aborts_witness :
    (([] : Bytes) ∈ [([] : Bytes)] ∧
      (fun b : Bytes => b.head?) [] = none ∧
      (fun (_ : BincodeConfig) (b : Bytes) => b.head?) reflect_receive_config [] = none) ∧
    (receiving_system (fun b : Bytes => b.head?) [[]] = (none : Option (List Nat)) ∧
     receiving_reflect_system (fun (_ : BincodeConfig) (b : Bytes) => b.head?) [[]] =
       (none : Option (List Nat))) :=
  ⟨⟨by decide, by decide, by decide⟩,
    decode_failure_aborts (fun b : Bytes => b.head?)
      (fun (_ : BincodeConfig) (b : Bytes) => b.head?) [[]] []
      (by decide) (by decide) (by decide)⟩

/-- C7: a received mapped event holding a server entity unknown to the entity
map makes the receiving path panic, modelled as the run evaluating to none:
the event is neither delivered nor buffered, in both the plain and the
reflect mapped receiving systems. -/
theorem unmappable_event_aborts {T : Type} (deserialize : Bytes → Option T)
    (deserialize_with : BincodeConfig → Bytes → Option T)
    (map_entities : T → Option T) (messages : List Bytes) (m : Bytes) (ev : T)
    (hm : m ∈ messages) (hd : deserialize m = some ev)
    (hdw : deserialize_with reflect_receive_config m = some ev)
    (hf : map_entities ev = none) :
    (receiving_and_mapping_system deserialize map_entities messages).1 = none ∧
    (receiving_and_mapping_reflect_system deserialize_with map_entities messages).1 =
      none := by
  have hdw' : deserialize_with
      (allow_trailing_bytes (with_fixint_encoding DefaultOptions.new)) m = some ev := hdw
  induction messages with
  | nil => cases hm
  | cons x rest ih =>
      rcases List.mem_cons.mp hm with rfl | hx
      · constructor
        · simp [receiving_and_mapping_system, hd, hf]
        · simp [receiving_and_mapping_reflect_system, hdw', hf]
      · obtain ⟨ih1, ih2⟩ := ih hx
        constructor
        · cases hdx : deserialize x with
          | none => simp [receiving_and_mapping_system, hdx]
          | some evx =>
              cases hfx : map_entities evx with
              | none => simp [receiving_and_mapping_system, hdx, hfx]
              | some mx => simp [receiving_and_mapping_system, hdx, hfx, ih1]
        · cases hdx : deserialize_with
              (allow_trailing_bytes (with_fixint_encoding DefaultOptions.new)) x with
          | none => simp [receiving_and_mapping_reflect_system, hdx]
          | some evx =>
              cases hfx : map_entities evx with
              | none => simp [receiving_and_mapping_reflect_system, hdx, hfx]
              | some mx => simp [receiving_and_mapping_reflect_system, hdx, hfx, ih2]

/-- Witness for C7: a one-byte message decodes to the value 4, which the
mapping rejects, and both mapped receiving systems abort with no delivered
events. -/
theorem unmappable_event_aborts_witness :
    (([4] : Bytes) ∈ [([4] : Bytes)] ∧
      (fun b : Bytes => b.head?) [4] = some 4 ∧
      (fun (_ : BincodeConfig) (b : Bytes) => b.head?) reflect_receive_config [4] =
        some 4 ∧
      (fun (_ : Nat) => (none : Option Nat)) 4 = none) ∧
    ((receiving_and_mapping_system (fun b : Bytes => b.head?)
        (fun _ => (none : Option Nat)) [[4]]).1 = none ∧
     (receiving_and_mapping_reflect_system
        (fun (_ : BincodeConfig) (b : Bytes) => b.head?)
        (fun _ => (none : Option Nat)) [[4]]).1 = none) :=
  ⟨⟨by decide, by decide, by decide, by decide⟩,
    unmappable_event_aborts (fun b : Bytes => b.head?)
      (fun (_ : BincodeConfig) (b : Bytes) => b.head?)
      (fun _ => (none : Option Nat)) [[4]] [4] 4
      (by decide) (by decide) (by decide) (by decide)⟩

/-- C8: the options rebuilt inside the reflect receiving systems equal the
configuration of the plain bincode serialize and deserialize functions, so
the reflect receiving system coincides with the plain receiving system run
under that configuration, and the reflect sending system issues exactly the
sends of the plain sending system for the same byte encoder. -/
theorem reflect_path_same_encoding :
    reflect_receive_config = bincode_function_config ∧
    (∀ (T : Type) (deserialize_with : BincodeConfig → Bytes → Option T)
      (messages : List Bytes),
      receiving_reflect_system deserialize_with messages =
        receiving_system (deserialize_with bincode_function_config) messages) ∧
    (∀ (T : Type) (serialize : T → Bytes) (clients : List Nat) (channel_id : Nat)
      (q : List (ToClients T)),
      sending_reflect_system serialize clients channel_id q =
        sending_system serialize clients channel_id q) := by
  have hcfg : allow_trailing_bytes (with_fixint_encoding DefaultOptions.new) =
      bincode_function_config := rfl
  refine ⟨rfl, ?_, ?_⟩
  · intro T deserialize_with messages
    induction messages with
    | nil => rfl
    | cons m rest ih =>
        cases hdx : deserialize_with bincode_function_config m with
        | none =>
            have hdx' : deserialize_with
                (allow_trailing_bytes (with_fixint_encoding DefaultOptions.new)) m =
              none := by rw [hcfg]; exact hdx
            simp [receiving_reflect_system, receiving_system, hdx, hdx']
        | some ev =>
            have hdx' : deserialize_with
                (allow_trailing_bytes (with_fixint_encoding DefaultOptions.new)) m =
              some ev := by rw [hcfg]; exact hdx
            simp [receiving_reflect_system, receiving_system, hdx, hdx', ih]
  · intro T serialize clients channel_id q
    induction q with
    | nil => rfl
    | cons e rest ih => simp [sending_reflect_system, sending_system, ih]
